import Mathlib

/-!
Shallow embedding of the repository `docknetwork_crypto` (the parts exercised by the
specification): the BBS+ setup module `bbs_plus/src/setup.rs` and the proof-composition
layer whose behaviour is pinned by `proof_system/tests/ped_comm.rs`.

Modelling conventions:
* Group elements of `G1`/`G2` are abstract types; where the code needs group arithmetic
  the types carry `AddCommMonoid`/`AddCommGroup` and a scalar action (written additively:
  the code's `g^x` is `x • g` here).
* Byte strings are `List Nat` (one entry per byte).
* The hash-to-curve helper `projective_group_elem_from_try_and_incr` and the scalar
  derivation helper `field_elem_from_seed` live in the `dock_crypto_utils` crate, outside
  the extracted sources; they are passed as explicit function parameters, so every
  statement about them is conditional on properties of the supplied function.
* Rust panics (`assert_ne!`) are modelled as `Option.none`; fallible functions returning
  `Result` are modelled with `Except`.
-/

namespace BbsPlus

/-- Error raised by `commit_to_messages` for an out-of-range message index.
The crate's `error.rs` is not among the extracted sources; the constructor name
`InvalidMessageIdx` is the one used at `setup.rs` lines 217 and 232. -/
inductive BBSPlusError where
  | InvalidMessageIdx (i : Nat)
deriving DecidableEq

/-- The ASCII bytes of the domain-separation suffix `" : g1"` (setup.rs line 135). -/
def strColonG1 : List Nat := [32, 58, 32, 103, 49]

/-- The ASCII bytes of the domain-separation suffix `" : g2"` (setup.rs line 156). -/
def strColonG2 : List Nat := [32, 58, 32, 103, 50]

/-- The ASCII bytes of the domain-separation fragment `" : h_"` (setup.rs line 141). -/
def strColonH : List Nat := [32, 58, 32, 104, 95]

/-- Little-endian 8-byte encoding of a `u64`, as produced by arkworks' `to_bytes!` for
`i as u64` (setup.rs line 141). -/
def u64LeBytes (i : Nat) : List Nat :=
  [i % 256, i / 256 % 256, i / 256 ^ 2 % 256, i / 256 ^ 3 % 256,
   i / 256 ^ 4 % 256, i / 256 ^ 5 % 256, i / 256 ^ 6 % 256, i / 256 ^ 7 % 256]

/-- BBS+ signature parameters (`SignatureParamsG1` in setup.rs lines 113-123, generated by
the `impl_sig_params!` macro): `g1`, `h_0` and the vector `h` live in the signature group,
`g2` in the other group. -/
structure SignatureParamsG1 (G1 G2 : Type) where
  g1 : G1
  g2 : G2
  h_0 : G1
  h : List G1
deriving DecidableEq

/-- `SignatureParamsG1::new` (setup.rs lines 129-165): deterministic parameters from a
label. `hashToG1`/`hashToG2` stand for `projective_group_elem_from_try_and_incr` at the
two groups. The `assert_ne!(message_count, 0)` panic is modelled by `none`. The source
hashes `label || " : h_" || i` for `i` in `0..=message_count`, takes the first element as
`h_0` and the rest as `h`. -/
def SignatureParamsG1.new {G1 G2 : Type} (hashToG1 : List Nat → G1)
    (hashToG2 : List Nat → G2) (label : List Nat) (message_count : Nat) :
    Option (SignatureParamsG1 G1 G2) :=
  if message_count = 0 then none
  else
    some
      { g1 := hashToG1 (label ++ strColonG1)
        g2 := hashToG2 (label ++ strColonG2)
        h_0 := hashToG1 (label ++ strColonH ++ u64LeBytes 0)
        h := (List.range message_count).map fun i =>
          hashToG1 (label ++ strColonH ++ u64LeBytes (i + 1)) }

/-- `SignatureParamsG1::generate_using_rng` (setup.rs lines 168-183). The RNG is modelled
as streams of group samples: `randG1 k` is the `k`-th draw from the signature group
(the source draws `h[0], .., h[message_count-1]`, then `g1`, then `h_0` from that group)
and `randG2` the single draw from the other group. The `assert_ne!` panic is `none`. -/
def SignatureParamsG1.generate_using_rng {G1 G2 : Type} (randG1 : Nat → G1) (randG2 : G2)
    (message_count : Nat) : Option (SignatureParamsG1 G1 G2) :=
  if message_count = 0 then none
  else
    some
      { g1 := randG1 message_count
        g2 := randG2
        h_0 := randG1 (message_count + 1)
        h := (List.range message_count).map randG1 }

/-- `SignatureParamsG1::is_valid` (setup.rs lines 188-193): false iff some element of
`g1, g2, h_0, h` is the group identity (zero, additively). -/
def SignatureParamsG1.is_valid {G1 G2 : Type} [Zero G1] [Zero G2] [DecidableEq G1]
    [DecidableEq G2] (p : SignatureParamsG1 G1 G2) : Bool :=
  !(decide (p.g1 = 0) || decide (p.g2 = 0) || decide (p.h_0 = 0)
    || p.h.any fun v => decide (v = 0))

/-- `SignatureParamsG1::supported_message_count` (setup.rs lines 196-198). -/
def SignatureParamsG1.supported_message_count {G1 G2 : Type}
    (p : SignatureParamsG1 G1 G2) : Nat :=
  p.h.length

/-- The base/scalar collection loop of `commit_to_messages` (setup.rs lines 226-238,
non-parallel branch; the parallel branch has the same result): walk the message map in
order, fail with the first index `i ≥ h.length`, otherwise pair each message with the
base `h[i]`. -/
def collectBases {G1 F : Type} (h : List G1) : List (Nat × F) → Except Nat (List (G1 × F))
  | [] => .ok []
  | (i, m) :: rest =>
    if hi : i < h.length then
      match collectBases h rest with
      | .error e => .error e
      | .ok tl => .ok ((h.get ⟨i, hi⟩, m) :: tl)
    else .error i

/-- `SignatureParamsG1::commit_to_messages` (setup.rs lines 205-243): collect `(h[i], m_i)`
pairs (failing on any out-of-range index), append `(h_0, blinding)` and return the
multi-scalar multiplication `h_0 • blinding + Σ h[i] • m_i`. -/
def SignatureParamsG1.commit_to_messages {G1 G2 F : Type} [AddCommMonoid G1] [SMul F G1]
    (p : SignatureParamsG1 G1 G2) (messages : List (Nat × F)) (blinding : F) :
    Except BBSPlusError G1 :=
  match collectBases p.h messages with
  | .error i => .error (.InvalidMessageIdx i)
  | .ok prs => .ok (((prs ++ [(p.h_0, blinding)]).map fun pr => pr.2 • pr.1).sum)

/-- `SignatureParamsG1::b` (setup.rs lines 248-255): the commitment plus `g1`. -/
def SignatureParamsG1.bValue {G1 G2 F : Type} [AddCommMonoid G1] [SMul F G1]
    (p : SignatureParamsG1 G1 G2) (messages : List (Nat × F)) (s : F) :
    Except BBSPlusError G1 :=
  (p.commit_to_messages messages s).map fun c => c + p.g1

/-- `SecretKey` (setup.rs line 73): a single scalar. The Rust field is the tuple slot `0`;
it is named `x` here following the specification. -/
structure SecretKey (F : Type) where
  x : F
deriving DecidableEq

/-- The derive list of `SecretKey` (setup.rs lines 62-72), recorded verbatim: `Copy` is
not among the derived traits (and Rust forbids `Copy` on a type with a `Drop` impl), so a
`SecretKey` cannot be duplicated implicitly. -/
def secretKeyDerives : List String :=
  ["Clone", "PartialEq", "Eq", "Debug", "CanonicalSerialize", "CanonicalDeserialize",
   "Serialize", "Deserialize", "Zeroize"]

/-- `Zeroize` for `SecretKey` (derived, setup.rs line 71): overwrite the scalar with zero. -/
def SecretKey.zeroize {F : Type} [Zero F] (_sk : SecretKey F) : SecretKey F :=
  ⟨0⟩

/-- `Drop for SecretKey` (setup.rs lines 75-79): dropping calls `zeroize`. The model
returns the state the memory is left in. -/
def SecretKey.dropped {F : Type} [Zero F] (sk : SecretKey F) : SecretKey F :=
  sk.zeroize

/-- The ASCII bytes of the salt `"BBS-SIG-KEYGEN-SALT-"` (setup.rs line 91). -/
def bbsKeygenSalt : List Nat :=
  [66, 66, 83, 45, 83, 73, 71, 45, 75, 69, 89, 71, 69, 78, 45, 83, 65, 76, 84, 45]

/-- `SecretKey::generate_using_seed` (setup.rs lines 84-94): derive the scalar from the
seed and the fixed salt. `fieldElemFromSeed` stands for the pure helper
`field_elem_from_seed::<F, D>` of `dock_crypto_utils` (seed and salt to a scalar). -/
def SecretKey.generate_using_seed {F : Type} (fieldElemFromSeed : List Nat → List Nat → F)
    (seed : List Nat) : SecretKey F :=
  ⟨fieldElemFromSeed seed bbsKeygenSalt⟩

/-- `PublicKeyG2` (setup.rs lines 276-278): a single group element. -/
structure PublicKeyG2 (G2 : Type) where
  el : G2
deriving DecidableEq

/-- `PublicKeyG2::generate_using_secret_key` (setup.rs lines 285-290):
`params.g2 * sk.0`, written additively as `sk.x • params.g2`. -/
def PublicKeyG2.generate_using_secret_key {G1 G2 F : Type} [SMul F G2]
    (secret_key : SecretKey F) (params : SignatureParamsG1 G1 G2) : PublicKeyG2 G2 :=
  ⟨secret_key.x • params.g2⟩

/-- `PublicKeyG2::is_valid` (setup.rs lines 294-296): the element is not the identity. -/
def PublicKeyG2.is_valid {G2 : Type} [Zero G2] [DecidableEq G2] (pk : PublicKeyG2 G2) :
    Bool :=
  !(decide (pk.el = 0))

/-- `KeypairG2` (setup.rs lines 314-317, from the `impl_keypair!` macro). -/
structure KeypairG2 (F G2 : Type) where
  secret_key : SecretKey F
  public_key : PublicKeyG2 G2
deriving DecidableEq

/-- `Zeroize for KeypairG2` (setup.rs lines 319-323): zeroizes the secret key. -/
def KeypairG2.zeroize {F G2 : Type} [Zero F] (kp : KeypairG2 F G2) : KeypairG2 F G2 :=
  { kp with secret_key := kp.secret_key.zeroize }

/-- `Drop for KeypairG2` (setup.rs lines 325-329): dropping calls `zeroize`. -/
def KeypairG2.dropped {F G2 : Type} [Zero F] (kp : KeypairG2 F G2) : KeypairG2 F G2 :=
  kp.zeroize

end BbsPlus

namespace ProofSystem

/-!
Model of the proof-composition layer.

Modelled from the spec: the `proof_system` crate's implementation (`ProofSpec`,
`Statement::PedersenCommitment`, `MetaStatement::WitnessEquality`, `SetupParams`,
`Proof::new`, `Proof::verify`) is not among the extracted sources; only its test file
`proof_system/tests/ped_comm.rs` is. The definitions below follow the specification's
§3 (data model), §4.6 (Pedersen PoK) and §4.7 (composition engine): per equality class
one shared blinding is injected, one global Fiat-Shamir challenge is derived from the
transcript, each Pedersen sub-proof is `T = Σ α_j • g_j`, `z_j = α_j + c·m_j`, the
verifier checks `Σ z_j • g_j = T + c • C` per statement and pairwise-equal responses per
equality class. Randomness (the blindings) and the transcript hash are explicit
parameters.
-/

/-- A reference `(statement_index, witness_index)`, as in `WitnessRef`. -/
abbrev WitnessRef := Nat × Nat

/-- Modelled from the spec: the shared `SetupParams` pool entry
`SetupParams::PedersenCommitmentKey` (a vector of bases). -/
inductive SetupParams (G : Type) where
  | PedersenCommitmentKey (bases : List G)
deriving DecidableEq

/-- Modelled from the spec: a Pedersen statement's commitment key is either inlined
(`new_statement_from_params`) or an index into the `SetupParams` pool
(`new_statement_from_params_refs`). -/
inductive CommKeyRef (G : Type) where
  | inline (bases : List G)
  | reference (idx : Nat)
deriving DecidableEq

/-- Modelled from the spec: the `Statement::PedersenCommitment` variant — a commitment
key and the commitment `C`. -/
structure PedCommStmt (G : Type) where
  key : CommKeyRef G
  commitment : G
deriving DecidableEq

/-- Modelled from the spec: a `ProofSpec` — statements, witness-equality classes
(each a list of `WitnessRef`s), the shared setup-params pool, and an optional context. -/
structure ProofSpec (G : Type) where
  statements : List (PedCommStmt G)
  metaStatements : List (List WitnessRef)
  setupParams : List (SetupParams G)
  context : Option (List Nat)
deriving DecidableEq

/-- Resolve a commitment key against the setup-params pool. -/
def resolveKey {G : Type} (pool : List (SetupParams G)) : CommKeyRef G → Option (List G)
  | .inline bases => some bases
  | .reference idx =>
    match pool.get? idx with
    | some (.PedersenCommitmentKey bases) => some bases
    | none => none

/-- Resolve the commitment keys of all statements, failing if any reference is dangling. -/
def resolveAll {G : Type} (pool : List (SetupParams G)) :
    List (PedCommStmt G) → Option (List (List G))
  | [] => some []
  | s :: rest =>
    match resolveKey pool s.key, resolveAll pool rest with
    | some b, some bs => some (b :: bs)
    | _, _ => none

/-- No witness reference occurs in two distinct equality classes. -/
def disjointClasses : List (List WitnessRef) → Bool
  | [] => true
  | cl :: rest =>
    (cl.all fun r => rest.all fun cl2 => !(cl2.contains r)) && disjointClasses rest

/-- Modelled from the spec (§3, `ProofSpec.validate`): every setup reference resolves,
every `(i, j)` of every equality class names an existing statement and a witness slot
below that statement's base count, each class relates at least two slots, and no slot
appears in two classes. -/
def ProofSpec.validate {G : Type} (ps : ProofSpec G) : Bool :=
  match resolveAll ps.setupParams ps.statements with
  | none => false
  | some basesList =>
    (ps.metaStatements.all fun cl =>
      decide (2 ≤ cl.length) &&
      cl.all fun r =>
        decide (r.1 < ps.statements.length) && decide (r.2 < (basesList.getD r.1 []).length))
    && disjointClasses ps.metaStatements

/-- The index of the equality class containing a reference, if any. -/
def classIdx : List (List WitnessRef) → WitnessRef → Option Nat
  | [], _ => none
  | cl :: rest, r =>
    if cl.contains r then some 0 else (classIdx rest r).map fun k => k + 1

/-- Modelled from the spec (§4.7 equality enforcement): the blinding used for witness
slot `(i, j)` — the class blinding `β k` when `(i, j)` lies in class `k`, otherwise the
slot's own blinding `α i j`. -/
def effBlinding {F : Type} (classes : List (List WitnessRef)) (β : Nat → F)
    (α : Nat → Nat → F) (i j : Nat) : F :=
  match classIdx classes (i, j) with
  | some k => β k
  | none => α i j

/-- The blinding vector of statement `i`, one entry per witness slot. -/
def blindingsFor {F : Type} (classes : List (List WitnessRef)) (β : Nat → F)
    (α : Nat → Nat → F) (i n : Nat) : List F :=
  (List.range n).map fun j => effBlinding classes β α i j

/-- Multi-scalar multiplication `Σ s_j • g_j` (written additively). -/
def msm {F G : Type} [CommRing F] [AddCommGroup G] [Module F G] (scalars : List F) (bases : List G) : G :=
  (List.zipWith (fun s g => s • g) scalars bases).sum

/-- Modelled from the spec: one per-statement Pedersen sub-proof — the commitment-phase
element `T` and the response vector `z`. -/
structure StmtProof (F G : Type) where
  t : G
  responses : List F
deriving DecidableEq

/-- A composed proof: one sub-proof per statement (§3, `Proof`). -/
abbrev Proof (F G : Type) := List (StmtProof F G)

/-- The per-statement blinding vectors for a resolved spec: statement `i` gets one
blinding per base of its commitment key, shared across an equality class. -/
def blindsOf {F G : Type} (spec : ProofSpec G) (basesList : List (List G)) (β : Nat → F)
    (α : Nat → Nat → F) : List (List F) :=
  (List.range spec.statements.length).map fun i =>
    blindingsFor spec.metaStatements β α i (basesList.getD i []).length

/-- The commitment-phase elements `T_i = Σ blinds • g` of all statements. -/
def tsOf {F G : Type} [CommRing F] [AddCommGroup G] [Module F G] (spec : ProofSpec G)
    (basesList : List (List G)) (β : Nat → F) (α : Nat → Nat → F) : List G :=
  List.zipWith msm (blindsOf spec basesList β α) basesList

/-- The global Fiat-Shamir challenge the prover derives: `chal` abstracts the XOF over
the serialized spec, the commitment-phase elements and the nonce. -/
def challengeOf {F G : Type} [CommRing F] [AddCommGroup G] [Module F G] (spec : ProofSpec G)
    (basesList : List (List G)) (β : Nat → F) (α : Nat → Nat → F)
    (chal : ProofSpec G → List G → List Nat → F) (nonce : List Nat) : F :=
  chal spec (tsOf spec basesList β α) nonce

/-- The slotwise responses `z = blind + c · witness` of all statements. -/
def respVectors {F : Type} [CommRing F] (blinds witnesses : List (List F)) (c : F) :
    List (List F) :=
  List.zipWith (fun bl w => List.zipWith (fun b m => b + c * m) bl w) blinds witnesses

/-- The proof built from a resolved spec and shape-correct witnesses. -/
def buildProof {F G : Type} [CommRing F] [AddCommGroup G] [Module F G] (spec : ProofSpec G)
    (basesList : List (List G)) (witnesses : List (List F)) (β : Nat → F)
    (α : Nat → Nat → F) (chal : ProofSpec G → List G → List Nat → F) (nonce : List Nat) :
    Proof F G :=
  List.zipWith StmtProof.mk (tsOf spec basesList β α)
    (respVectors (blindsOf spec basesList β α) witnesses
      (challengeOf spec basesList β α chal nonce))

/-- Modelled from the spec (§4.6-4.7, `Proof::new`): resolve the commitment keys and
check the witness shapes, build per-statement blindings (sharing one `β k` per equality
class `k`), form `T_i = Σ blinds • g`, derive the global challenge from the transcript
and respond with `z = blind + c · witness` slotwise. -/
def proofNew {F G : Type} [CommRing F] [AddCommGroup G] [Module F G] (spec : ProofSpec G)
    (witnesses : List (List F)) (β : Nat → F) (α : Nat → Nat → F)
    (chal : ProofSpec G → List G → List Nat → F) (nonce : List Nat) :
    Option (Proof F G) :=
  match resolveAll spec.setupParams spec.statements with
  | none => none
  | some basesList =>
    if (witnesses.length == spec.statements.length)
        && (List.zip basesList witnesses).all fun pr => pr.1.length == pr.2.length then
      some (buildProof spec basesList witnesses β α chal nonce)
    else none

/-- The response stored in the proof for witness slot `r = (i, j)`. -/
def respAt {F G : Type} [Zero F] [Zero G] (proof : Proof F G) (r : WitnessRef) : F :=
  (proof.getD r.1 ⟨0, []⟩).responses.getD r.2 0

/-- The per-statement checks of the verifier: response arity, and
`Σ z_j • g_j = T + c • C`. -/
def stmtChecks {F G : Type} [CommRing F] [AddCommGroup G] [Module F G] [DecidableEq G] (c : F)
    (proof : Proof F G) (basesList : List (List G)) (stmts : List (PedCommStmt G)) :
    Bool :=
  (List.zip (List.zip proof basesList) stmts).all fun pr =>
    (pr.1.1.responses.length == pr.1.2.length)
    && decide (msm pr.1.1.responses pr.1.2 = pr.1.1.t + c • pr.2.commitment)

/-- The equality-class checks of the verifier: the responses at the slots of each class
are pairwise equal. -/
def classChecks {F G : Type} [Zero F] [Zero G] [DecidableEq F] (proof : Proof F G)
    (classes : List (List WitnessRef)) : Bool :=
  classes.all fun cl =>
    match cl with
    | [] => true
    | r :: rest => rest.all fun r2 => decide (respAt proof r2 = respAt proof r)

/-- Modelled from the spec (§4.6-4.7, `Proof::verify`): recompute the challenge from the
received commitment-phase elements, run the per-statement checks, then the
equality-class checks. -/
def proofVerify {F G : Type} [CommRing F] [AddCommGroup G] [Module F G] [DecidableEq F]
    [DecidableEq G] (spec : ProofSpec G) (proof : Proof F G)
    (chal : ProofSpec G → List G → List Nat → F) (nonce : List Nat) : Bool :=
  match resolveAll spec.setupParams spec.statements with
  | none => false
  | some basesList =>
    (proof.length == spec.statements.length)
    && (stmtChecks (chal spec (proof.map fun sp => sp.t) nonce) proof basesList
          spec.statements
        && classChecks proof spec.metaStatements)

/-- The witness scalar at slot `(i, j)`. -/
def witAt {F : Type} [Zero F] (witnesses : List (List F)) (r : WitnessRef) : F :=
  (witnesses.getD r.1 []).getD r.2 0

/-- Placeholder statement used as a `getD` default when indexing statement lists. -/
def defaultStmt {G : Type} [Zero G] : PedCommStmt G :=
  ⟨CommKeyRef.inline [], 0⟩

/-- The E4 scenario's proof spec (`ped_comm.rs` lines 161-257): three Pedersen statements
whose commitment keys are the index-0 entry of the setup-params pool (a single shared
base vector), commitments opening to `s1`, `s2`, `s3`, the two equality classes
`{(0,3),(1,1)}` and `{(0,0),(1,4)}`, and context `"test"`. -/
def e4Spec {F G : Type} [CommRing F] [AddCommGroup G] [Module F G] (bases : List G)
    (s1 s2 s3 : List F) : ProofSpec G :=
  { statements := [⟨.reference 0, msm s1 bases⟩, ⟨.reference 0, msm s2 bases⟩,
      ⟨.reference 0, msm s3 bases⟩]
    metaStatements := [[(0, 3), (1, 1)], [(0, 0), (1, 4)]]
    setupParams := [.PedersenCommitmentKey bases]
    context := some [116, 101, 115, 116] }

/-- A concrete two-statement spec in the shape of the E3 scenario (5 bases then 10 bases,
equality classes `{(0,3),(1,1)}` and `{(0,0),(1,4)}`), over `F = G = Int`, with
commitments opening to `e3Witnesses`. -/
def e3Spec : ProofSpec Int :=
  { statements := [⟨.inline [1, 1, 1, 1, 1], 10⟩,
      ⟨.inline [1, 1, 1, 1, 1, 1, 1, 1, 1, 1], 13⟩]
    metaStatements := [[(0, 3), (1, 1)], [(0, 0), (1, 4)]]
    setupParams := []
    context := some [116, 101, 115, 116] }

/-- `e3Spec` with the second statement's commitment replaced by the first one's value
(the "wrong commitment" variant of the E3 scenario). -/
def e3SpecWrongCommitment : ProofSpec Int :=
  { statements := [⟨.inline [1, 1, 1, 1, 1], 10⟩,
      ⟨.inline [1, 1, 1, 1, 1, 1, 1, 1, 1, 1], 10⟩]
    metaStatements := [[(0, 3), (1, 1)], [(0, 0), (1, 4)]]
    setupParams := []
    context := some [116, 101, 115, 116] }

/-- `e3Spec` with the first equality class replaced by the false class `{(0,3),(1,0)}`. -/
def e3SpecWrongEquality : ProofSpec Int :=
  { statements := [⟨.inline [1, 1, 1, 1, 1], 10⟩,
      ⟨.inline [1, 1, 1, 1, 1, 1, 1, 1, 1, 1], 13⟩]
    metaStatements := [[(0, 3), (1, 0)], [(0, 0), (1, 4)]]
    setupParams := []
    context := some [116, 101, 115, 116] }

/-- Witness scalars for `e3Spec`: the shared values are `w(0,3) = w(1,1) = 3` and
`w(0,0) = w(1,4) = 0`, while `w(1,0) = 1 ≠ 3 = w(0,3)`. -/
def e3Witnesses : List (List Int) := [[0, 1, 2, 3, 4], [1, 3, 1, 1, 0, 2, 1, 1, 2, 1]]

/-- A concrete class-blinding assignment for the witnesses. -/
def betaDemo : Nat → Int := fun k => k + 2

/-- A concrete per-slot blinding assignment for the witnesses. -/
def alphaDemo : Nat → Nat → Int := fun i j => i + 2 * j + 1

/-- A concrete transcript-hash function with nonzero output, for the witnesses. -/
def chalDemo : ProofSpec Int → List Int → List Nat → Int := fun _ _ _ => 1

/-- A concrete nonce (`"test nonce"` plays this role in the tests). -/
def nonceDemo : List Nat := [116, 101, 115, 116, 32, 110, 111, 110, 99, 101]

end ProofSystem

namespace BbsPlus

/-- Concrete one-message parameters over `F = G1 = G2 = Int`, for witnesses. -/
def paramsOneMsg : SignatureParamsG1 Int Int := ⟨3, 4, 5, [7]⟩

end BbsPlus

/-! ### Helper lemmas about the BBS+ setup functions -/

namespace BbsPlus

theorem collectBases_ok {G1 F : Type} [Zero G1] (h : List G1) (msgs : List (Nat × F))
    (hall : ∀ pr ∈ msgs, pr.1 < h.length) :
    collectBases h msgs = .ok (msgs.map fun pr => (h.getD pr.1 0, pr.2)) := by
  induction msgs with
  | nil => rfl
  | cons pr rest ih =>
    obtain ⟨i, m⟩ := pr
    have hi : i < h.length := hall (i, m) (List.mem_cons_self _ _)
    have hrest : ∀ pr ∈ rest, pr.1 < h.length := fun pr hpr =>
      hall pr (List.mem_cons_of_mem _ hpr)
    simp only [collectBases, dif_pos hi, ih hrest, List.map_cons]
    rw [List.getD_eq_getElem h 0 hi]
    rfl

theorem collectBases_error_elim {G1 F : Type} (h : List G1) (msgs : List (Nat × F))
    (i : Nat) (he : collectBases h msgs = .error i) :
    h.length ≤ i ∧ i ∈ msgs.map Prod.fst := by
  induction msgs with
  | nil => simp [collectBases] at he
  | cons pr rest ih =>
    obtain ⟨j, m⟩ := pr
    by_cases hj : j < h.length
    · simp only [collectBases, dif_pos hj] at he
      cases hr : collectBases h rest with
      | error e =>
        rw [hr] at he
        cases he
        have := ih hr
        exact ⟨this.1, by simp only [List.map_cons]; exact List.mem_cons_of_mem _ this.2⟩
      | ok tl => rw [hr] at he; exact absurd he (by simp)
    · simp only [collectBases, dif_neg hj] at he
      cases he
      exact ⟨Nat.le_of_not_lt hj, by simp⟩

theorem collectBases_error_of {G1 F : Type} (h : List G1) (msgs : List (Nat × F))
    (hex : ∃ pr ∈ msgs, h.length ≤ pr.1) :
    ∃ i, collectBases h msgs = .error i := by
  induction msgs with
  | nil => simp at hex
  | cons pr rest ih =>
    obtain ⟨j, m⟩ := pr
    by_cases hj : j < h.length
    · have hex' : ∃ pr ∈ rest, h.length ≤ pr.1 := by
        rcases hex with ⟨pr, hmem, hge⟩
        rcases List.mem_cons.mp hmem with heq | hmem'
        · subst heq; omega
        · exact ⟨pr, hmem', hge⟩
      rcases ih hex' with ⟨e, he⟩
      exact ⟨e, by simp [collectBases, dif_pos hj, he]⟩
    · exact ⟨j, by simp [collectBases, dif_neg hj]⟩

theorem commit_to_messages_ok {G1 G2 F : Type} [AddCommMonoid G1] [SMul F G1]
    (p : SignatureParamsG1 G1 G2) (msgs : List (Nat × F)) (blinding : F)
    (hall : ∀ pr ∈ msgs, pr.1 < p.h.length) :
    p.commit_to_messages msgs blinding =
      .ok ((msgs.map fun pr => pr.2 • p.h.getD pr.1 0).sum + blinding • p.h_0) := by
  unfold SignatureParamsG1.commit_to_messages
  rw [collectBases_ok p.h msgs hall]
  simp only [List.map_append, List.map_map, List.sum_append, List.map_cons, List.map_nil,
    List.sum_cons, List.sum_nil, add_zero, Except.ok.injEq]
  rfl

theorem commit_to_messages_error {G1 G2 F : Type} [AddCommMonoid G1] [SMul F G1]
    (p : SignatureParamsG1 G1 G2) (msgs : List (Nat × F)) (blinding : F)
    (hex : ∃ pr ∈ msgs, p.h.length ≤ pr.1) :
    ∃ i, p.commit_to_messages msgs blinding = .error (.InvalidMessageIdx i)
      ∧ p.h.length ≤ i ∧ i ∈ msgs.map Prod.fst := by
  rcases collectBases_error_of p.h msgs hex with ⟨i, he⟩
  have := collectBases_error_elim p.h msgs i he
  exact ⟨i, by simp [SignatureParamsG1.commit_to_messages, he], this.1, this.2⟩

end BbsPlus

namespace BbsPlus

/-- Claim C1: `SignatureParamsG1::new` is a deterministic function of `(label, L)` — two
calls with the same arguments return equal parameters — and, provided the hash-to-curve
function is injective (the source's try-and-increment hash, abstracted here, is
collision-free in the security model), two different labels with the same `L ≥ 1` yield
different parameters. -/
theorem params_new_deterministic_and_label_distinct {G1 G2 : Type}
    (hashToG1 : List Nat → G1) (hashToG2 : List Nat → G2) (label_a label_b : List Nat)
    (L : Nat) (hL : 1 ≤ L) (hinj : Function.Injective hashToG1) (hne : label_a ≠ label_b) :
    SignatureParamsG1.new hashToG1 hashToG2 label_a L
        = SignatureParamsG1.new hashToG1 hashToG2 label_a L
      ∧ SignatureParamsG1.new hashToG1 hashToG2 label_a L
        ≠ SignatureParamsG1.new hashToG1 hashToG2 label_b L := by
  refine ⟨rfl, ?_⟩
  have hLne : L ≠ 0 := by omega
  simp only [SignatureParamsG1.new, if_neg hLne]
  intro hcontra
  have h1 : hashToG1 (label_a ++ strColonG1) = hashToG1 (label_b ++ strColonG1) :=
    congrArg SignatureParamsG1.g1 (Option.some.inj hcontra)
  exact hne (List.append_left_injective strColonG1 (hinj h1))

/-- Witness for C1 at the injective hash `id`, labels `[0]` and `[1]`, `L = 1`. -/
theorem params_new_deterministic_and_label_distinct_witness :
    SignatureParamsG1.new (id : List Nat → List Nat) (fun _ => (0 : Int)) [0] 1
        = SignatureParamsG1.new (id : List Nat → List Nat) (fun _ => (0 : Int)) [0] 1
      ∧ SignatureParamsG1.new (id : List Nat → List Nat) (fun _ => (0 : Int)) [0] 1
        ≠ SignatureParamsG1.new (id : List Nat → List Nat) (fun _ => (0 : Int)) [1] 1 :=
  params_new_deterministic_and_label_distinct (id : List Nat → List Nat)
    (fun _ => (0 : Int)) [0] [1] 1 (by decide) (fun _ _ h => h) (by decide)

/-- Claim C5: `is_valid` returns true iff none of `g1`, `g2`, `h_0`, `h_1..h_L` is the
group identity. -/
theorem params_is_valid_iff {G1 G2 : Type} [Zero G1] [Zero G2] [DecidableEq G1]
    [DecidableEq G2] (p : SignatureParamsG1 G1 G2) :
    p.is_valid = true ↔ p.g1 ≠ 0 ∧ p.g2 ≠ 0 ∧ p.h_0 ≠ 0 ∧ ∀ v ∈ p.h, v ≠ 0 := by
  simp [SignatureParamsG1.is_valid, not_or, and_assoc]

/-- Witness for C5 at concrete all-nonzero parameters. -/
theorem params_is_valid_iff_witness : paramsOneMsg.is_valid = true :=
  (params_is_valid_iff paramsOneMsg).mpr (by decide)

/-- Claim C6: the public key generated from a secret key is exactly `g2^x` (additively
`x • g2`), and it is valid iff that element is not the identity. -/
theorem public_key_from_secret {G1 G2 F : Type} [Zero G2] [DecidableEq G2] [SMul F G2]
    (sk : SecretKey F) (params : SignatureParamsG1 G1 G2) :
    (PublicKeyG2.generate_using_secret_key sk params).el = sk.x • params.g2
      ∧ ((PublicKeyG2.generate_using_secret_key sk params).is_valid = true
          ↔ sk.x • params.g2 ≠ 0) := by
  refine ⟨rfl, ?_⟩
  simp [PublicKeyG2.is_valid, PublicKeyG2.generate_using_secret_key]

/-- Witness for C6 at a concrete secret key and parameters. -/
theorem public_key_from_secret_witness :
    (PublicKeyG2.generate_using_secret_key ⟨(2 : Int)⟩ paramsOneMsg).el
        = (2 : Int) • paramsOneMsg.g2
      ∧ ((PublicKeyG2.generate_using_secret_key ⟨(2 : Int)⟩ paramsOneMsg).is_valid = true
          ↔ (2 : Int) • paramsOneMsg.g2 ≠ 0) :=
  public_key_from_secret ⟨(2 : Int)⟩ paramsOneMsg

/-- Claim C7: `SecretKey::generate_using_seed` is a deterministic function of the seed
(the RNG plays no part): two calls with the same seed and hash agree, and the result is
exactly the derivation from the seed and the fixed salt `"BBS-SIG-KEYGEN-SALT-"`. -/
theorem secret_key_from_seed_deterministic {F : Type}
    (fieldElemFromSeed : List Nat → List Nat → F) (seed : List Nat) :
    SecretKey.generate_using_seed fieldElemFromSeed seed
        = SecretKey.generate_using_seed fieldElemFromSeed seed
      ∧ SecretKey.generate_using_seed fieldElemFromSeed seed
        = ⟨fieldElemFromSeed seed bbsKeygenSalt⟩ :=
  ⟨rfl, rfl⟩

/-- Claim C4: dropping a `SecretKey` zeroizes its scalar; dropping a `KeypairG2` (which
transitively holds one) zeroizes the contained scalar; and `Copy` is not among
`SecretKey`'s derived traits, so implicit duplication is refused (indeed Rust forbids
`Copy` on a type with a `Drop` impl). -/
theorem secret_key_zeroized_on_drop {F G2 : Type} [Zero F] (sk : SecretKey F)
    (kp : KeypairG2 F G2) :
    (sk.dropped).x = 0 ∧ (kp.dropped).secret_key.x = 0 ∧ "Copy" ∉ secretKeyDerives :=
  ⟨rfl, rfl, by decide⟩

/-- Claim C10: both parameter constructors reject `message_count = 0` by panicking
(`assert_ne!`, modelled as `none`; their Rust signatures return `Self`, not `Result`),
and for `message_count ≥ 1` they return parameters whose `h` vector has exactly
`message_count` elements. -/
theorem params_constructors_message_count {G1 G2 : Type} (hashToG1 : List Nat → G1)
    (hashToG2 : List Nat → G2) (randG1 : Nat → G1) (randG2 : G2) (label : List Nat)
    (mc : Nat) (hmc : 1 ≤ mc) :
    SignatureParamsG1.new hashToG1 hashToG2 label 0 = none
      ∧ SignatureParamsG1.generate_using_rng randG1 randG2 0
          = (none : Option (SignatureParamsG1 G1 G2))
      ∧ (SignatureParamsG1.new hashToG1 hashToG2 label mc).map (fun p => p.h.length)
          = some mc
      ∧ (SignatureParamsG1.generate_using_rng randG1 randG2 mc).map
            (fun p : SignatureParamsG1 G1 G2 => p.h.length)
          = some mc := by
  have hne : mc ≠ 0 := by omega
  refine ⟨rfl, rfl, ?_, ?_⟩
  · simp [SignatureParamsG1.new, hne]
  · simp [SignatureParamsG1.generate_using_rng, hne]

/-- Witness for C10 at `message_count = 3` over `Int`. -/
theorem params_constructors_message_count_witness :
    SignatureParamsG1.new (fun _ => (1 : Int)) (fun _ => (1 : Int)) [5] 0 = none
      ∧ SignatureParamsG1.generate_using_rng (fun _ => (1 : Int)) (1 : Int) 0
          = (none : Option (SignatureParamsG1 Int Int))
      ∧ (SignatureParamsG1.new (fun _ => (1 : Int)) (fun _ => (1 : Int)) [5] 3).map
            (fun p => p.h.length)
          = some 3
      ∧ (SignatureParamsG1.generate_using_rng (fun _ => (1 : Int)) (1 : Int) 3).map
            (fun p : SignatureParamsG1 Int Int => p.h.length)
          = some 3 :=
  params_constructors_message_count (fun _ => (1 : Int)) (fun _ => (1 : Int))
    (fun _ => (1 : Int)) (1 : Int) [5] 3 (by decide)

/-- Counterexample to C3 as stated: with `L = 1` and message map `{1 ↦ 2}`, no key
exceeds `L`, yet `commit_to_messages` fails with `InvalidMessageIdx 1` — the code
rejects keys `≥ L`, not only keys `> L`. -/
theorem commit_exceeds_counterexample :
    paramsOneMsg.commit_to_messages [(1, (2 : Int))] 6 = .error (.InvalidMessageIdx 1)
      ∧ ¬ (∃ pr ∈ [((1 : Nat), (2 : Int))],
            paramsOneMsg.supported_message_count < pr.1) := by
  exact ⟨rfl, by decide⟩

/-- Claim C3 (amended): `commit_to_messages(m_map, s)` fails with `InvalidMessageIndex`
iff some key of `m_map` is `≥ L` (keys are zero-based, so the key `L` itself is also
rejected); otherwise it returns `h_0 • s + Σ_{(i,m) ∈ m_map} h_i • m`. The parameters
are taken by shared reference and never modified. -/
theorem commit_to_messages_index_check {G1 G2 F : Type} [AddCommMonoid G1] [SMul F G1]
    (p : SignatureParamsG1 G1 G2) (msgs : List (Nat × F)) (blinding : F) :
    ((∀ pr ∈ msgs, pr.1 < p.supported_message_count) →
        p.commit_to_messages msgs blinding
          = .ok ((msgs.map fun pr => pr.2 • p.h.getD pr.1 0).sum + blinding • p.h_0))
      ∧ ((∃ pr ∈ msgs, p.supported_message_count ≤ pr.1) →
        ∃ i, p.commit_to_messages msgs blinding = .error (.InvalidMessageIdx i)) := by
  constructor
  · exact fun hall => commit_to_messages_ok p msgs blinding hall
  · intro hex
    rcases commit_to_messages_error p msgs blinding hex with ⟨i, he, _, _⟩
    exact ⟨i, he⟩

/-- Witness for C3 (amended) at a concrete in-range map and a concrete out-of-range map. -/
theorem commit_to_messages_index_check_witness :
    paramsOneMsg.commit_to_messages [(0, (2 : Int))] 6 = .ok 44
      ∧ ∃ i, paramsOneMsg.commit_to_messages [(1, (2 : Int))] 6
          = .error (.InvalidMessageIdx i) := by
  constructor
  · exact ((commit_to_messages_index_check paramsOneMsg [(0, (2 : Int))] 6).1
      (by decide)).trans rfl
  · exact (commit_to_messages_index_check paramsOneMsg [(1, (2 : Int))] 6).2
      ⟨(1, 2), by decide, by decide⟩

/-- Claim C9: `commit_to_messages` indexes zero-based — a key `i` selects base `h[i]`,
the accepted maps are exactly those whose keys all satisfy `i < L`, and any map with a
key `≥ L` (including `L` itself) is rejected with an `InvalidMessageIdx` error naming
one of its out-of-range keys. -/
theorem commit_to_messages_zero_based {G1 G2 F : Type} [AddCommMonoid G1] [SMul F G1]
    (p : SignatureParamsG1 G1 G2) (msgs : List (Nat × F)) (blinding : F) :
    ((∃ l, p.commit_to_messages msgs blinding = .ok l)
        ↔ ∀ pr ∈ msgs, pr.1 < p.supported_message_count)
      ∧ (∀ i, p.commit_to_messages msgs blinding = .error (.InvalidMessageIdx i)
          → p.supported_message_count ≤ i ∧ i ∈ msgs.map Prod.fst)
      ∧ ((∀ pr ∈ msgs, pr.1 < p.supported_message_count) →
        p.commit_to_messages msgs blinding
          = .ok ((msgs.map fun pr => pr.2 • p.h.getD pr.1 0).sum + blinding • p.h_0)) := by
  refine ⟨⟨?_, ?_⟩, ?_, ?_⟩
  · intro hok
    by_contra hnot
    push_neg at hnot
    rcases hnot with ⟨pr, hmem, hge⟩
    rcases commit_to_messages_error p msgs blinding ⟨pr, hmem, hge⟩ with ⟨i, he, _, _⟩
    rcases hok with ⟨l, hl⟩
    rw [hl] at he
    exact absurd he (by simp)
  · intro hall
    exact ⟨_, commit_to_messages_ok p msgs blinding hall⟩
  · intro i hi
    unfold SignatureParamsG1.commit_to_messages at hi
    cases hcb : collectBases p.h msgs with
    | error j =>
      rw [hcb] at hi
      have hij : j = i := by
        have := Except.error.inj hi
        exact BBSPlusError.InvalidMessageIdx.inj this
      subst hij
      exact collectBases_error_elim p.h msgs j hcb
    | ok tl =>
      rw [hcb] at hi
      exact absurd hi (by simp)
  · exact fun hall => commit_to_messages_ok p msgs blinding hall

/-- Witness for C9: the key `1` equals `L` for one-message parameters and is rejected. -/
theorem commit_to_messages_zero_based_witness :
    paramsOneMsg.supported_message_count ≤ 1
      ∧ 1 ∈ [((1 : Nat), (3 : Int))].map Prod.fst :=
  (commit_to_messages_zero_based paramsOneMsg [(1, (3 : Int))] 6).2.1 1 rfl

end BbsPlus

/-! ### Helper lemmas about the composition layer -/

namespace ProofSystem

theorem getD_zipWith_of_lt {A B C : Type} (f : A → B → C) (l1 : List A) (l2 : List B)
    (d1 : A) (d2 : B) (d3 : C) (i : Nat) (h1 : i < l1.length) (h2 : i < l2.length) :
    (List.zipWith f l1 l2).getD i d3 = f (l1.getD i d1) (l2.getD i d2) := by
  rw [List.getD_eq_getElem _ _ (by rw [List.length_zipWith]; omega),
    List.getElem_zipWith, List.getD_eq_getElem _ _ h1, List.getD_eq_getElem _ _ h2]

theorem getD_map_range_of_lt {A : Type} (f : Nat → A) (n i : Nat) (d : A) (h : i < n) :
    ((List.range n).map f).getD i d = f i := by
  rw [List.getD_eq_getElem _ _ (by simpa using h), List.getElem_map, List.getElem_range]

theorem resolveAll_length {G : Type} (pool : List (SetupParams G))
    (stmts : List (PedCommStmt G)) (gs : List (List G))
    (h : resolveAll pool stmts = some gs) : gs.length = stmts.length := by
  induction stmts generalizing gs with
  | nil =>
    simp only [resolveAll, Option.some.injEq] at h
    subst h
    rfl
  | cons s rest ih =>
    simp only [resolveAll] at h
    cases hk : resolveKey pool s.key with
    | none => rw [hk] at h; exact absurd h (by simp)
    | some b =>
      rw [hk] at h
      cases hr : resolveAll pool rest with
      | none => rw [hr] at h; exact absurd h (by simp)
      | some bs =>
        rw [hr] at h
        simp only [Option.some.injEq] at h
        subst h
        simp [ih bs hr]

theorem contains_false_of_disjoint_head (c : List WitnessRef)
    (rest : List (List WitnessRef))
    (hd1 : (c.all fun x => rest.all fun cl2 => !(cl2.contains x)) = true)
    {cl : List WitnessRef} (hcl : cl ∈ rest) {r : WitnessRef} (hr : r ∈ cl) :
    c.contains r = false := by
  by_contra hc
  have hrc : r ∈ c := by
    have : c.contains r = true := by
      cases hcc : c.contains r
      · exact absurd hcc hc
      · rfl
    simpa [List.contains_eq_any_beq] using this
  have h1 := List.all_eq_true.mp hd1 r hrc
  have h2 := List.all_eq_true.mp h1 cl hcl
  have h3 : cl.contains r = false := by
    cases hcc : cl.contains r
    · rfl
    · rw [hcc] at h2; exact absurd h2 (by simp)
  have : r ∈ cl → False := by
    intro hmem
    have : cl.contains r = true := by simpa [List.contains_eq_any_beq] using hmem
    rw [this] at h3
    exact absurd h3 (by simp)
  exact this hr

theorem classIdx_mem (classes : List (List WitnessRef))
    (hd : disjointClasses classes = true) {cl : List WitnessRef} (hcl : cl ∈ classes)
    {r r2 : WitnessRef} (hr : r ∈ cl) (hr2 : r2 ∈ cl) :
    ∃ k, classIdx classes r = some k ∧ classIdx classes r2 = some k := by
  induction classes with
  | nil => cases hcl
  | cons c rest ih =>
    have hd' : (c.all fun x => rest.all fun cl2 => !(cl2.contains x)) = true
        ∧ disjointClasses rest = true := by
      simpa [disjointClasses, Bool.and_eq_true] using hd
    rcases List.mem_cons.mp hcl with heq | hmem
    · have hrc : r ∈ c := heq ▸ hr
      have hr2c : r2 ∈ c := heq ▸ hr2
      have hcr : c.contains r = true := by simpa [List.contains_eq_any_beq] using hrc
      have hcr2 : c.contains r2 = true := by simpa [List.contains_eq_any_beq] using hr2c
      refine ⟨0, ?_, ?_⟩
      · simp only [classIdx]
        rw [hcr]
        simp
      · simp only [classIdx]
        rw [hcr2]
        simp
    · have hcr : c.contains r = false :=
        contains_false_of_disjoint_head c rest hd'.1 hmem hr
      have hcr2 : c.contains r2 = false :=
        contains_false_of_disjoint_head c rest hd'.1 hmem hr2
      rcases ih hd'.2 hmem with ⟨k, h1, h2⟩
      refine ⟨k + 1, ?_, ?_⟩
      · simp only [classIdx]
        rw [hcr, h1]
        simp
      · simp only [classIdx]
        rw [hcr2, h2]
        simp

theorem msm_resp {F G : Type} [CommRing F] [AddCommGroup G] [Module F G] (c : F) :
    ∀ (u v : List F) (g : List G), u.length = v.length →
      msm (List.zipWith (fun b m => b + c * m) u v) g = msm u g + c • msm v g := by
  intro u
  induction u with
  | nil =>
    intro v g hlen
    cases v with
    | nil => simp [msm]
    | cons m v2 => exact absurd hlen (by simp)
  | cons b u ih =>
    intro v g hlen
    cases v with
    | nil => exact absurd hlen (by simp)
    | cons m v2 =>
      cases g with
      | nil => simp [msm]
      | cons x g2 =>
        have hlen2 : u.length = v2.length := by simpa using hlen
        have ihh := ih v2 g2 hlen2
        simp only [msm, List.zipWith_cons_cons, List.sum_cons] at ihh ⊢
        rw [ihh, add_smul, mul_smul, smul_add]
        abel

theorem map_t_zipWith {F G : Type} (a : List G) (b : List (List F))
    (h : a.length = b.length) :
    (List.zipWith StmtProof.mk a b).map (fun sp => sp.t) = a := by
  induction a generalizing b with
  | nil => simp
  | cons x a ih =>
    cases b with
    | nil => exact absurd h (by simp)
    | cons y b =>
      simp only [List.zipWith_cons_cons, List.map_cons]
      rw [ih b (by simpa using h)]

theorem validate_elim {G : Type} (spec : ProofSpec G) (gs : List (List G))
    (hres : resolveAll spec.setupParams spec.statements = some gs)
    (hval : spec.validate = true) :
    (∀ cl ∈ spec.metaStatements, 2 ≤ cl.length
        ∧ ∀ r ∈ cl, r.1 < spec.statements.length ∧ r.2 < (gs.getD r.1 []).length)
      ∧ disjointClasses spec.metaStatements = true := by
  unfold ProofSpec.validate at hval
  rw [hres] at hval
  rw [Bool.and_eq_true] at hval
  constructor
  · intro cl hcl
    have h1 := List.all_eq_true.mp hval.1 cl hcl
    rw [Bool.and_eq_true] at h1
    refine ⟨by simpa using h1.1, ?_⟩
    intro r hrr
    have h2 := List.all_eq_true.mp h1.2 r hrr
    rw [Bool.and_eq_true] at h2
    exact ⟨by simpa using h2.1, by simpa using h2.2⟩
  · exact hval.2

end ProofSystem

namespace ProofSystem

theorem proofNew_eq {F G : Type} [CommRing F] [AddCommGroup G] [Module F G]
    (spec : ProofSpec G) (w : List (List F)) (β : Nat → F) (α : Nat → Nat → F)
    (chal : ProofSpec G → List G → List Nat → F) (nonce : List Nat) (gs : List (List G))
    (hres : resolveAll spec.setupParams spec.statements = some gs)
    (hwl : w.length = spec.statements.length)
    (hlen : ∀ i, i < spec.statements.length →
      (w.getD i []).length = (gs.getD i []).length) :
    proofNew spec w β α chal nonce = some (buildProof spec gs w β α chal nonce) := by
  have hgl : gs.length = spec.statements.length := resolveAll_length _ _ _ hres
  have hzip : ((List.zip gs w).all fun pr => pr.1.length == pr.2.length) = true := by
    rw [List.all_eq_true]
    intro pr hpr
    rcases List.mem_iff_getElem.mp hpr with ⟨i, hilt, heq⟩
    have hi : i < spec.statements.length := by
      rw [List.length_zip] at hilt
      omega
    subst heq
    rw [List.getElem_zip]
    simp only [beq_iff_eq]
    have e1 : gs[i] = gs.getD i [] := (List.getD_eq_getElem gs [] (by omega)).symm
    have e2 : w[i] = w.getD i [] := (List.getD_eq_getElem w [] (by omega)).symm
    rw [e1, e2, hlen i hi]
  unfold proofNew
  rw [hres]
  simp only [hwl, beq_self_eq_true, hzip, Bool.and_self, if_true]

theorem blindsOf_getD {F G : Type} (spec : ProofSpec G) (gs : List (List G)) (β : Nat → F)
    (α : Nat → Nat → F) (i : Nat) (hi : i < spec.statements.length) :
    (blindsOf spec gs β α).getD i []
      = blindingsFor spec.metaStatements β α i ((gs.getD i []).length) := by
  unfold blindsOf
  exact getD_map_range_of_lt _ _ _ _ hi

theorem blindingsFor_getD {F : Type} [Zero F] (classes : List (List WitnessRef)) (β : Nat → F)
    (α : Nat → Nat → F) (i n j : Nat) (hj : j < n) :
    (blindingsFor classes β α i n).getD j 0 = effBlinding classes β α i j := by
  unfold blindingsFor
  exact getD_map_range_of_lt _ _ _ _ hj

theorem tsOf_getD {F G : Type} [CommRing F] [AddCommGroup G] [Module F G]
    (spec : ProofSpec G) (gs : List (List G)) (β : Nat → F) (α : Nat → Nat → F) (i : Nat)
    (hi : i < spec.statements.length) (hgl : gs.length = spec.statements.length) :
    (tsOf spec gs β α).getD i 0
      = msm (blindingsFor spec.metaStatements β α i ((gs.getD i []).length))
          (gs.getD i []) := by
  unfold tsOf
  rw [getD_zipWith_of_lt msm _ _ [] [] 0 i (by simp [blindsOf]; omega) (by omega)]
  rw [blindsOf_getD spec gs β α i hi]

theorem buildProof_length {F G : Type} [CommRing F] [AddCommGroup G] [Module F G]
    (spec : ProofSpec G) (gs : List (List G)) (w : List (List F)) (β : Nat → F)
    (α : Nat → Nat → F) (chal : ProofSpec G → List G → List Nat → F) (nonce : List Nat)
    (hgl : gs.length = spec.statements.length) (hwl : w.length = spec.statements.length) :
    (buildProof spec gs w β α chal nonce).length = spec.statements.length := by
  simp [buildProof, tsOf, respVectors, blindsOf, List.length_zipWith, hgl, hwl]

theorem buildProof_map_t {F G : Type} [CommRing F] [AddCommGroup G] [Module F G]
    (spec : ProofSpec G) (gs : List (List G)) (w : List (List F)) (β : Nat → F)
    (α : Nat → Nat → F) (chal : ProofSpec G → List G → List Nat → F) (nonce : List Nat)
    (hgl : gs.length = spec.statements.length) (hwl : w.length = spec.statements.length) :
    (buildProof spec gs w β α chal nonce).map (fun sp => sp.t) = tsOf spec gs β α := by
  apply map_t_zipWith
  simp [tsOf, respVectors, blindsOf, List.length_zipWith, hgl, hwl]

theorem buildProof_getD {F G : Type} [CommRing F] [AddCommGroup G] [Module F G]
    (spec : ProofSpec G) (gs : List (List G)) (w : List (List F)) (β : Nat → F)
    (α : Nat → Nat → F) (chal : ProofSpec G → List G → List Nat → F) (nonce : List Nat)
    (hgl : gs.length = spec.statements.length) (hwl : w.length = spec.statements.length)
    (i : Nat) (hi : i < spec.statements.length) :
    (buildProof spec gs w β α chal nonce).getD i ⟨0, []⟩
      = StmtProof.mk ((tsOf spec gs β α).getD i 0)
          (List.zipWith (fun b m => b + challengeOf spec gs β α chal nonce * m)
            (blindingsFor spec.metaStatements β α i ((gs.getD i []).length))
            (w.getD i [])) := by
  have htlen : (tsOf spec gs β α).length = spec.statements.length := by
    simp [tsOf, blindsOf, List.length_zipWith, hgl]
  have hrlen :
      (respVectors (blindsOf spec gs β α) w
        (challengeOf spec gs β α chal nonce)).length = spec.statements.length := by
    simp [respVectors, blindsOf, List.length_zipWith, hwl]
  unfold buildProof
  rw [getD_zipWith_of_lt StmtProof.mk _ _ 0 [] ⟨0, []⟩ i (by omega) (by omega)]
  unfold respVectors
  rw [getD_zipWith_of_lt _ _ _ [] [] [] i (by simp [blindsOf]; omega) (by omega)]
  rw [blindsOf_getD spec gs β α i hi]

theorem respAt_buildProof {F G : Type} [CommRing F] [AddCommGroup G] [Module F G]
    (spec : ProofSpec G) (w : List (List F)) (β : Nat → F) (α : Nat → Nat → F)
    (chal : ProofSpec G → List G → List Nat → F) (nonce : List Nat) (gs : List (List G))
    (hres : resolveAll spec.setupParams spec.statements = some gs)
    (hwl : w.length = spec.statements.length)
    (hlen : ∀ i, i < spec.statements.length →
      (w.getD i []).length = (gs.getD i []).length)
    (r : WitnessRef) (hi : r.1 < spec.statements.length)
    (hj : r.2 < (gs.getD r.1 []).length) :
    respAt (buildProof spec gs w β α chal nonce) r
      = effBlinding spec.metaStatements β α r.1 r.2
        + challengeOf spec gs β α chal nonce * witAt w r := by
  obtain ⟨i, j⟩ := r
  dsimp only at hi hj ⊢
  have hgl : gs.length = spec.statements.length := resolveAll_length _ _ _ hres
  have hjw : j < (w.getD i []).length := by
    rw [hlen i hi]
    exact hj
  unfold respAt
  rw [buildProof_getD spec gs w β α chal nonce hgl hwl i hi]
  show (List.zipWith (fun b m => b + challengeOf spec gs β α chal nonce * m)
      (blindingsFor spec.metaStatements β α i ((gs.getD i []).length))
      (w.getD i [])).getD j 0 = _
  rw [getD_zipWith_of_lt _ _ _ 0 0 0 j (by simpa [blindingsFor] using hj) hjw]
  rw [blindingsFor_getD spec.metaStatements β α i _ j hj]
  rfl

end ProofSystem

namespace ProofSystem

theorem stmtChecks_buildProof_true {F G : Type} [CommRing F] [AddCommGroup G] [Module F G]
    [DecidableEq G] (spec : ProofSpec G) (w : List (List F)) (β : Nat → F)
    (α : Nat → Nat → F) (chal : ProofSpec G → List G → List Nat → F) (nonce : List Nat)
    (gs : List (List G)) (hres : resolveAll spec.setupParams spec.statements = some gs)
    (hwl : w.length = spec.statements.length)
    (hlen : ∀ i, i < spec.statements.length →
      (w.getD i []).length = (gs.getD i []).length)
    (hopen : ∀ i, i < spec.statements.length →
      msm (w.getD i []) (gs.getD i []) = (spec.statements.getD i defaultStmt).commitment) :
    stmtChecks (challengeOf spec gs β α chal nonce)
      (buildProof spec gs w β α chal nonce) gs spec.statements = true := by
  have hgl : gs.length = spec.statements.length := resolveAll_length _ _ _ hres
  have hplen : (buildProof spec gs w β α chal nonce).length = spec.statements.length :=
    buildProof_length spec gs w β α chal nonce hgl hwl
  unfold stmtChecks
  rw [List.all_eq_true]
  intro pr hpr
  rcases List.mem_iff_getElem.mp hpr with ⟨i, hilt, heq⟩
  have hi : i < spec.statements.length := by
    rw [List.length_zip, List.length_zip] at hilt
    omega
  subst heq
  rw [List.getElem_zip, List.getElem_zip]
  have ebp : (buildProof spec gs w β α chal nonce)[i]
      = (buildProof spec gs w β α chal nonce).getD i ⟨0, []⟩ :=
    (List.getD_eq_getElem _ _ (by omega)).symm
  have egs : gs[i] = gs.getD i [] := (List.getD_eq_getElem _ _ (by omega)).symm
  have est : spec.statements[i] = spec.statements.getD i defaultStmt :=
    (List.getD_eq_getElem _ _ hi).symm
  rw [ebp, egs, est, buildProof_getD spec gs w β α chal nonce hgl hwl i hi]
  dsimp only
  have hlenr : (List.zipWith (fun b m => b + challengeOf spec gs β α chal nonce * m)
      (blindingsFor spec.metaStatements β α i ((gs.getD i []).length))
      (w.getD i [])).length = (gs.getD i []).length := by
    have := hlen i hi
    simp only [List.length_zipWith, blindingsFor, List.length_map, List.length_range]
    omega
  have hulen : (blindingsFor spec.metaStatements β α i ((gs.getD i []).length)).length
      = (w.getD i []).length := by
    have := hlen i hi
    simp only [blindingsFor, List.length_map, List.length_range]
    omega
  have hmsm : msm (List.zipWith (fun b m => b + challengeOf spec gs β α chal nonce * m)
      (blindingsFor spec.metaStatements β α i ((gs.getD i []).length)) (w.getD i []))
      (gs.getD i [])
      = (tsOf spec gs β α).getD i 0
        + challengeOf spec gs β α chal nonce
            • (spec.statements.getD i defaultStmt).commitment := by
    rw [msm_resp (challengeOf spec gs β α chal nonce) _ _ _ hulen]
    rw [tsOf_getD spec gs β α i hi hgl, hopen i hi]
  rw [hlenr, hmsm]
  simp

theorem classChecks_buildProof_true {F G : Type} [CommRing F] [AddCommGroup G] [Module F G]
    [DecidableEq F] (spec : ProofSpec G) (w : List (List F)) (β : Nat → F)
    (α : Nat → Nat → F) (chal : ProofSpec G → List G → List Nat → F) (nonce : List Nat)
    (gs : List (List G)) (hres : resolveAll spec.setupParams spec.statements = some gs)
    (hwl : w.length = spec.statements.length)
    (hlen : ∀ i, i < spec.statements.length →
      (w.getD i []).length = (gs.getD i []).length)
    (hval : spec.validate = true)
    (hcons : ∀ cl ∈ spec.metaStatements, ∀ r ∈ cl, ∀ r2 ∈ cl, witAt w r = witAt w r2) :
    classChecks (buildProof spec gs w β α chal nonce) spec.metaStatements = true := by
  obtain ⟨hranges, hdisj⟩ := validate_elim spec gs hres hval
  unfold classChecks
  rw [List.all_eq_true]
  intro cl hcl
  cases cl with
  | nil => rfl
  | cons r rest =>
    show (rest.all fun r2 => decide (respAt (buildProof spec gs w β α chal nonce) r2
        = respAt (buildProof spec gs w β α chal nonce) r)) = true
    rw [List.all_eq_true]
    intro r2 hr2
    have hrmem : r ∈ r :: rest := List.mem_cons_self _ _
    have hr2mem : r2 ∈ r :: rest := List.mem_cons_of_mem _ hr2
    have hb1 := (hranges _ hcl).2 r hrmem
    have hb2 := (hranges _ hcl).2 r2 hr2mem
    rw [respAt_buildProof spec w β α chal nonce gs hres hwl hlen r hb1.1 hb1.2,
      respAt_buildProof spec w β α chal nonce gs hres hwl hlen r2 hb2.1 hb2.2]
    rcases classIdx_mem spec.metaStatements hdisj hcl hrmem hr2mem with ⟨k, hk1, hk2⟩
    have he1 : effBlinding spec.metaStatements β α r.1 r.2 = β k := by
      unfold effBlinding
      rw [hk1]
    have he2 : effBlinding spec.metaStatements β α r2.1 r2.2 = β k := by
      unfold effBlinding
      rw [hk2]
    have hweq : witAt w r2 = witAt w r := hcons _ hcl r2 hr2mem r hrmem
    rw [he1, he2, hweq]
    simp

theorem proofVerify_buildProof_true {F G : Type} [CommRing F] [AddCommGroup G] [Module F G]
    [DecidableEq F] [DecidableEq G] (spec : ProofSpec G) (w : List (List F)) (β : Nat → F)
    (α : Nat → Nat → F) (chal : ProofSpec G → List G → List Nat → F) (nonce : List Nat)
    (gs : List (List G)) (hres : resolveAll spec.setupParams spec.statements = some gs)
    (hwl : w.length = spec.statements.length)
    (hlen : ∀ i, i < spec.statements.length →
      (w.getD i []).length = (gs.getD i []).length)
    (hopen : ∀ i, i < spec.statements.length →
      msm (w.getD i []) (gs.getD i []) = (spec.statements.getD i defaultStmt).commitment)
    (hval : spec.validate = true)
    (hcons : ∀ cl ∈ spec.metaStatements, ∀ r ∈ cl, ∀ r2 ∈ cl, witAt w r = witAt w r2) :
    proofVerify spec (buildProof spec gs w β α chal nonce) chal nonce = true := by
  have hgl : gs.length = spec.statements.length := resolveAll_length _ _ _ hres
  have hstmt := stmtChecks_buildProof_true spec w β α chal nonce gs hres hwl hlen hopen
  have hclass := classChecks_buildProof_true spec w β α chal nonce gs hres hwl hlen hval
    hcons
  unfold proofVerify
  rw [hres]
  dsimp only
  rw [buildProof_map_t spec gs w β α chal nonce hgl hwl]
  rw [show chal spec (tsOf spec gs β α) nonce = challengeOf spec gs β α chal nonce
    from rfl]
  rw [hstmt, hclass, buildProof_length spec gs w β α chal nonce hgl hwl]
  simp

end ProofSystem

namespace ProofSystem

theorem proofVerify_false_of_bad_commitment {F G : Type} [CommRing F] [AddCommGroup G]
    [Module F G] [NoZeroSMulDivisors F G] [DecidableEq F] [DecidableEq G]
    (spec : ProofSpec G) (w : List (List F)) (β : Nat → F) (α : Nat → Nat → F)
    (chal : ProofSpec G → List G → List Nat → F) (nonce : List Nat) (gs : List (List G))
    (hres : resolveAll spec.setupParams spec.statements = some gs)
    (hwl : w.length = spec.statements.length)
    (hlen : ∀ i, i < spec.statements.length →
      (w.getD i []).length = (gs.getD i []).length)
    (i0 : Nat) (hi0 : i0 < spec.statements.length)
    (hbad : msm (w.getD i0 []) (gs.getD i0 [])
      ≠ (spec.statements.getD i0 defaultStmt).commitment)
    (hc : challengeOf spec gs β α chal nonce ≠ 0) :
    proofVerify spec (buildProof spec gs w β α chal nonce) chal nonce = false := by
  have hgl : gs.length = spec.statements.length := resolveAll_length _ _ _ hres
  have hplen : (buildProof spec gs w β α chal nonce).length = spec.statements.length :=
    buildProof_length spec gs w β α chal nonce hgl hwl
  have hfalse : stmtChecks (challengeOf spec gs β α chal nonce)
      (buildProof spec gs w β α chal nonce) gs spec.statements = false := by
    unfold stmtChecks
    rw [List.all_eq_false]
    have hmem : (((buildProof spec gs w β α chal nonce).getD i0 ⟨0, []⟩, gs.getD i0 []),
        spec.statements.getD i0 defaultStmt)
        ∈ List.zip (List.zip (buildProof spec gs w β α chal nonce) gs)
            spec.statements := by
      apply List.mem_iff_getElem.mpr
      refine ⟨i0, ?_, ?_⟩
      · rw [List.length_zip, List.length_zip, hplen]
        omega
      · rw [List.getElem_zip, List.getElem_zip,
          List.getD_eq_getElem (buildProof spec gs w β α chal nonce) ⟨0, []⟩ (by omega),
          List.getD_eq_getElem gs [] (by omega),
          List.getD_eq_getElem spec.statements defaultStmt hi0]
    refine ⟨_, hmem, ?_⟩
    dsimp only
    rw [buildProof_getD spec gs w β α chal nonce hgl hwl i0 hi0]
    dsimp only
    have hulen : (blindingsFor spec.metaStatements β α i0
        ((gs.getD i0 []).length)).length = (w.getD i0 []).length := by
      have := hlen i0 hi0
      simp only [blindingsFor, List.length_map, List.length_range]
      omega
    have hmsm : msm (List.zipWith (fun b m => b + challengeOf spec gs β α chal nonce * m)
        (blindingsFor spec.metaStatements β α i0 ((gs.getD i0 []).length))
        (w.getD i0 [])) (gs.getD i0 [])
        = (tsOf spec gs β α).getD i0 0
          + challengeOf spec gs β α chal nonce
              • msm (w.getD i0 []) (gs.getD i0 []) := by
      rw [msm_resp (challengeOf spec gs β α chal nonce) _ _ _ hulen]
      rw [tsOf_getD spec gs β α i0 hi0 hgl]
    have hne : (tsOf spec gs β α).getD i0 0
        + challengeOf spec gs β α chal nonce • msm (w.getD i0 []) (gs.getD i0 [])
        ≠ (tsOf spec gs β α).getD i0 0
          + challengeOf spec gs β α chal nonce
              • (spec.statements.getD i0 defaultStmt).commitment := by
      intro heq
      have h2 : challengeOf spec gs β α chal nonce • msm (w.getD i0 []) (gs.getD i0 [])
          = challengeOf spec gs β α chal nonce
              • (spec.statements.getD i0 defaultStmt).commitment :=
        add_left_cancel heq
      have h3 : challengeOf spec gs β α chal nonce
          • (msm (w.getD i0 []) (gs.getD i0 [])
              - (spec.statements.getD i0 defaultStmt).commitment) = 0 := by
        rw [smul_sub, h2, sub_self]
      rcases smul_eq_zero.mp h3 with h | h
      · exact hc h
      · exact hbad (sub_eq_zero.mp h)
    rw [hmsm]
    simp only [Bool.and_eq_true, decide_eq_true_eq, not_and]
    intro _ heq
    exact hne heq
  unfold proofVerify
  rw [hres]
  dsimp only
  rw [buildProof_map_t spec gs w β α chal nonce hgl hwl]
  rw [show chal spec (tsOf spec gs β α) nonce = challengeOf spec gs β α chal nonce
    from rfl]
  rw [hfalse]
  simp

theorem proofVerify_false_of_bad_class {F G : Type} [CommRing F] [NoZeroDivisors F]
    [AddCommGroup G] [Module F G] [DecidableEq F] [DecidableEq G]
    (spec : ProofSpec G) (w : List (List F)) (β : Nat → F) (α : Nat → Nat → F)
    (chal : ProofSpec G → List G → List Nat → F) (nonce : List Nat) (gs : List (List G))
    (hres : resolveAll spec.setupParams spec.statements = some gs)
    (hwl : w.length = spec.statements.length)
    (hlen : ∀ i, i < spec.statements.length →
      (w.getD i []).length = (gs.getD i []).length)
    (hval : spec.validate = true) {cl : List WitnessRef}
    (hcl : cl ∈ spec.metaStatements) {ra rb : WitnessRef} (hra : ra ∈ cl) (hrb : rb ∈ cl)
    (hwne : witAt w ra ≠ witAt w rb)
    (hc : challengeOf spec gs β α chal nonce ≠ 0) :
    proofVerify spec (buildProof spec gs w β α chal nonce) chal nonce = false := by
  have hgl : gs.length = spec.statements.length := resolveAll_length _ _ _ hres
  obtain ⟨hranges, hdisj⟩ := validate_elim spec gs hres hval
  have hba := (hranges _ hcl).2 ra hra
  have hbb := (hranges _ hcl).2 rb hrb
  have hne : respAt (buildProof spec gs w β α chal nonce) ra
      ≠ respAt (buildProof spec gs w β α chal nonce) rb := by
    rw [respAt_buildProof spec w β α chal nonce gs hres hwl hlen ra hba.1 hba.2,
      respAt_buildProof spec w β α chal nonce gs hres hwl hlen rb hbb.1 hbb.2]
    rcases classIdx_mem spec.metaStatements hdisj hcl hra hrb with ⟨k, hk1, hk2⟩
    have he1 : effBlinding spec.metaStatements β α ra.1 ra.2 = β k := by
      unfold effBlinding
      rw [hk1]
    have he2 : effBlinding spec.metaStatements β α rb.1 rb.2 = β k := by
      unfold effBlinding
      rw [hk2]
    rw [he1, he2]
    intro heq
    have h2 : challengeOf spec gs β α chal nonce * witAt w ra
        = challengeOf spec gs β α chal nonce * witAt w rb := add_left_cancel heq
    have h3 : challengeOf spec gs β α chal nonce * (witAt w ra - witAt w rb) = 0 := by
      rw [mul_sub, h2, sub_self]
    rcases mul_eq_zero.mp h3 with h | h
    · exact hc h
    · exact hwne (sub_eq_zero.mp h)
  have hfalse : classChecks (buildProof spec gs w β α chal nonce) spec.metaStatements
      = false := by
    unfold classChecks
    rw [List.all_eq_false]
    refine ⟨cl, hcl, ?_⟩
    cases cl with
    | nil => cases hra
    | cons r rest =>
      intro hall
      have hallm : ∀ rx ∈ r :: rest,
          respAt (buildProof spec gs w β α chal nonce) rx
            = respAt (buildProof spec gs w β α chal nonce) r := by
        intro rx hx
        rcases List.mem_cons.mp hx with he | hm
        · rw [he]
        · have := List.all_eq_true.mp hall rx hm
          simpa using this
      exact hne ((hallm ra hra).trans (hallm rb hrb).symm)
  unfold proofVerify
  rw [hres]
  dsimp only
  rw [hfalse]
  simp

end ProofSystem

namespace ProofSystem

/-- Claim C2: for Pedersen-commitment statements composed under one proof spec with
witness-equality classes, proof generation on shape-correct witnesses always succeeds
(it never refuses, matching the tests, which `unwrap` it); if the spec validates, every
commitment opens to its witness and all scalars referenced by every class agree, the
proof verifies; if two scalars referenced by one class differ (as with the false class
`{(0,3),(1,0)}` of E3) verification fails; and if some statement's commitment is not the
witness's commitment (as when `C_2` is replaced by `C_1`'s value in E3) verification
fails — the last two whenever the Fiat-Shamir challenge is nonzero, which is why the
spec's "either refuses or fails verification" holds. -/
theorem pedersen_witness_equality {F G : Type} [CommRing F] [NoZeroDivisors F]
    [AddCommGroup G] [Module F G] [NoZeroSMulDivisors F G] [DecidableEq F] [DecidableEq G]
    (spec : ProofSpec G) (w : List (List F)) (β : Nat → F) (α : Nat → Nat → F)
    (chal : ProofSpec G → List G → List Nat → F) (nonce : List Nat) (gs : List (List G))
    (hres : resolveAll spec.setupParams spec.statements = some gs)
    (hwl : w.length = spec.statements.length)
    (hlen : ∀ i, i < spec.statements.length →
      (w.getD i []).length = (gs.getD i []).length) :
    proofNew spec w β α chal nonce = some (buildProof spec gs w β α chal nonce)
      ∧ (spec.validate = true →
        (∀ i, i < spec.statements.length →
          msm (w.getD i []) (gs.getD i [])
            = (spec.statements.getD i defaultStmt).commitment) →
        (∀ cl ∈ spec.metaStatements, ∀ r ∈ cl, ∀ r2 ∈ cl, witAt w r = witAt w r2) →
        proofVerify spec (buildProof spec gs w β α chal nonce) chal nonce = true)
      ∧ (spec.validate = true →
        ∀ cl ∈ spec.metaStatements, ∀ ra ∈ cl, ∀ rb ∈ cl, witAt w ra ≠ witAt w rb →
        challengeOf spec gs β α chal nonce ≠ 0 →
        proofVerify spec (buildProof spec gs w β α chal nonce) chal nonce = false)
      ∧ (∀ i0, i0 < spec.statements.length →
        msm (w.getD i0 []) (gs.getD i0 [])
          ≠ (spec.statements.getD i0 defaultStmt).commitment →
        challengeOf spec gs β α chal nonce ≠ 0 →
        proofVerify spec (buildProof spec gs w β α chal nonce) chal nonce = false) := by
  refine ⟨proofNew_eq spec w β α chal nonce gs hres hwl hlen, ?_, ?_, ?_⟩
  · intro hval hopen hcons
    exact proofVerify_buildProof_true spec w β α chal nonce gs hres hwl hlen hopen hval
      hcons
  · intro hval cl hcl ra hra rb hrb hwne hc
    exact proofVerify_false_of_bad_class spec w β α chal nonce gs hres hwl hlen hval hcl
      hra hrb hwne hc
  · intro i0 hi0 hbad hc
    exact proofVerify_false_of_bad_commitment spec w β α chal nonce gs hres hwl hlen i0
      hi0 hbad hc

/-- Witness for C2 at the concrete E3-shaped instance over `Int`: the honest proof
verifies, the false equality class makes verification fail, and the swapped commitment
makes verification fail. -/
theorem pedersen_witness_equality_witness :
    proofVerify e3Spec
        (buildProof e3Spec [[1, 1, 1, 1, 1], [1, 1, 1, 1, 1, 1, 1, 1, 1, 1]] e3Witnesses
          betaDemo alphaDemo chalDemo nonceDemo) chalDemo nonceDemo = true
      ∧ proofVerify e3SpecWrongEquality
          (buildProof e3SpecWrongEquality [[1, 1, 1, 1, 1], [1, 1, 1, 1, 1, 1, 1, 1, 1, 1]]
            e3Witnesses betaDemo alphaDemo chalDemo nonceDemo) chalDemo nonceDemo = false
      ∧ proofVerify e3SpecWrongCommitment
          (buildProof e3SpecWrongCommitment
            [[1, 1, 1, 1, 1], [1, 1, 1, 1, 1, 1, 1, 1, 1, 1]] e3Witnesses betaDemo
            alphaDemo chalDemo nonceDemo) chalDemo nonceDemo = false := by
  refine ⟨?_, ?_, ?_⟩
  · exact (pedersen_witness_equality e3Spec e3Witnesses betaDemo alphaDemo chalDemo
      nonceDemo [[1, 1, 1, 1, 1], [1, 1, 1, 1, 1, 1, 1, 1, 1, 1]] rfl (by decide)
      (by decide)).2.1 (by decide) (by decide) (by decide)
  · exact (pedersen_witness_equality e3SpecWrongEquality e3Witnesses betaDemo alphaDemo
      chalDemo nonceDemo [[1, 1, 1, 1, 1], [1, 1, 1, 1, 1, 1, 1, 1, 1, 1]] rfl
      (by decide) (by decide)).2.2.1 (by decide) [(0, 3), (1, 0)] (by decide) (0, 3)
      (by decide) (1, 0) (by decide) (by decide) (by decide)
  · exact (pedersen_witness_equality e3SpecWrongCommitment e3Witnesses betaDemo alphaDemo
      chalDemo nonceDemo [[1, 1, 1, 1, 1], [1, 1, 1, 1, 1, 1, 1, 1, 1, 1]] rfl
      (by decide) (by decide)).2.2.2 1 (by decide) (by decide) (by decide)

end ProofSystem

namespace ProofSystem

/-- Claim C8: when three Pedersen statements reference one shared 5-base commitment key
through index 0 of the setup-params pool (instead of inlining the bases), the proof spec
validates, proof generation over matching witnesses succeeds, and the resulting proof
verifies under the same indexed references. -/
theorem setup_params_reuse {F G : Type} [CommRing F] [AddCommGroup G] [Module F G]
    [DecidableEq F] [DecidableEq G] (bases : List G) (s1 s2 s3 : List F) (β : Nat → F)
    (α : Nat → Nat → F) (chal : ProofSpec G → List G → List Nat → F) (nonce : List Nat)
    (hb : bases.length = 5) (h1 : s1.length = 5) (h2 : s2.length = 5) (h3 : s3.length = 5)
    (he1 : s2.getD 1 0 = s1.getD 3 0) (he2 : s2.getD 4 0 = s1.getD 0 0) :
    (e4Spec bases s1 s2 s3).validate = true
      ∧ ∃ p, proofNew (e4Spec bases s1 s2 s3) [s1, s2, s3] β α chal nonce = some p
          ∧ proofVerify (e4Spec bases s1 s2 s3) p chal nonce = true := by
  have hres : resolveAll (e4Spec bases s1 s2 s3).setupParams
      (e4Spec bases s1 s2 s3).statements = some [bases, bases, bases] := rfl
  have hval : (e4Spec bases s1 s2 s3).validate = true := by
    unfold ProofSpec.validate
    rw [hres]
    dsimp only
    simp [e4Spec, disjointClasses, hb, List.getD, Prod.ext_iff, List.getElem_cons_succ,
      List.getElem_cons_zero]
    show 1 < bases.length
    omega
  have hwl : ([s1, s2, s3] : List (List F)).length
      = (e4Spec bases s1 s2 s3).statements.length := rfl
  have hlen : ∀ i, i < (e4Spec bases s1 s2 s3).statements.length →
      (([s1, s2, s3] : List (List F)).getD i []).length
        = (([bases, bases, bases] : List (List G)).getD i []).length := by
    intro i hi
    have hi3 : i < 3 := hi
    interval_cases i <;> simp [h1, h2, h3, hb]
  have hopen : ∀ i, i < (e4Spec bases s1 s2 s3).statements.length →
      msm (([s1, s2, s3] : List (List F)).getD i [])
          (([bases, bases, bases] : List (List G)).getD i [])
        = ((e4Spec bases s1 s2 s3).statements.getD i defaultStmt).commitment := by
    intro i hi
    have hi3 : i < 3 := hi
    interval_cases i <;> simp [e4Spec]
  have hcons : ∀ cl ∈ (e4Spec bases s1 s2 s3).metaStatements, ∀ r ∈ cl, ∀ r2 ∈ cl,
      witAt ([s1, s2, s3] : List (List F)) r = witAt ([s1, s2, s3] : List (List F)) r2 := by
    intro cl hcl r hr r2 hr2
    have hcl2 : cl ∈ [[((0 : Nat), (3 : Nat)), (1, 1)], [(0, 0), (1, 4)]] := hcl
    rcases List.mem_cons.mp hcl2 with rfl | hcl3
    · have hv : ∀ x ∈ [((0 : Nat), (3 : Nat)), (1, 1)],
          witAt ([s1, s2, s3] : List (List F)) x = s1.getD 3 0 := by
        intro x hx
        rcases List.mem_cons.mp hx with rfl | hx2
        · rfl
        · rcases List.mem_cons.mp hx2 with rfl | hx3
          · exact he1
          · cases hx3
      rw [hv r hr, hv r2 hr2]
    · rcases List.mem_cons.mp hcl3 with rfl | hcl4
      · have hv : ∀ x ∈ [((0 : Nat), (0 : Nat)), (1, 4)],
            witAt ([s1, s2, s3] : List (List F)) x = s1.getD 0 0 := by
          intro x hx
          rcases List.mem_cons.mp hx with rfl | hx2
          · rfl
          · rcases List.mem_cons.mp hx2 with rfl | hx3
            · exact he2
            · cases hx3
        rw [hv r hr, hv r2 hr2]
      · cases hcl4
  refine ⟨hval, buildProof (e4Spec bases s1 s2 s3) [bases, bases, bases] [s1, s2, s3] β α
    chal nonce, ?_, ?_⟩
  · exact proofNew_eq (e4Spec bases s1 s2 s3) [s1, s2, s3] β α chal nonce
      [bases, bases, bases] hres hwl hlen
  · exact proofVerify_buildProof_true (e4Spec bases s1 s2 s3) [s1, s2, s3] β α chal nonce
      [bases, bases, bases] hres hwl hlen hopen hval hcons

/-- Witness for C8 at a concrete 5-base instance over `Int`. -/
theorem setup_params_reuse_witness :
    (e4Spec ([1, 1, 1, 1, 1] : List Int) ([0, 1, 2, 3, 4] : List Int)
        ([1, 3, 2, 2, 0] : List Int) ([1, 1, 1, 1, 1] : List Int)).validate = true
      ∧ ∃ p, proofNew (e4Spec ([1, 1, 1, 1, 1] : List Int) ([0, 1, 2, 3, 4] : List Int)
            ([1, 3, 2, 2, 0] : List Int) ([1, 1, 1, 1, 1] : List Int))
            [[0, 1, 2, 3, 4], [1, 3, 2, 2, 0], [1, 1, 1, 1, 1]] betaDemo
            alphaDemo chalDemo nonceDemo = some p
          ∧ proofVerify (e4Spec ([1, 1, 1, 1, 1] : List Int) ([0, 1, 2, 3, 4] : List Int)
              ([1, 3, 2, 2, 0] : List Int) ([1, 1, 1, 1, 1] : List Int)) p chalDemo
              nonceDemo = true :=
  setup_params_reuse ([1, 1, 1, 1, 1] : List Int) ([0, 1, 2, 3, 4] : List Int)
    ([1, 3, 2, 2, 0] : List Int) ([1, 1, 1, 1, 1] : List Int) betaDemo alphaDemo chalDemo
    nonceDemo (by decide) (by decide) (by decide) (by decide) (by decide) (by decide)

end ProofSystem
